import Mathlib

/-!
# Verification of the darkiv PDF dark-mode conversion pipeline

Shallow embedding of `src/darkiv.py`: a script that converts a PDF to a
"dark mode" PDF by invoking three external tools (pdftocairo, ImageMagick
convert, img2pdf).  External process behaviour is modelled by an `Env`
record supplying each invocation's outcome (raised FileNotFoundError vs.
returned exit code, produced files, captured stdout).  The script's
side effects (prints, spawns, temp-directory lifecycle) are recorded as an
explicit event trace.

Python string operations are modelled over `List Char` — Python strings
index by code point, so this matches Python's slicing/splitting semantics
directly and keeps every definition kernel-reducible.
-/

deriving instance DecidableEq for Except

namespace Darkiv

/-! ## Python string primitives -/

/-- `s.startswith(pat)`, as list prefix test. -/
def isPrefixList : List Char → List Char → Bool
  | [], _ => true
  | _ :: _, [] => false
  | p :: ps, c :: cs => if p = c then isPrefixList ps cs else false

/-- `s.endswith(pat)`, as list suffix test. -/
def isSuffixList (pat s : List Char) : Bool :=
  isPrefixList pat.reverse s.reverse

/-- `s.split(sep)` for a single-character separator: always returns at
least one (possibly empty) segment. -/
def splitOnChar (sep : Char) : List Char → List (List Char)
  | [] => [[]]
  | c :: rest =>
    let r := splitOnChar sep rest
    if c = sep then [] :: r
    else
      match r with
      | s :: ss => (c :: s) :: ss
      | [] => [[c]]

/-- `s.strip()`: drop leading and trailing whitespace. -/
def stripWS (cs : List Char) : List Char :=
  ((cs.dropWhile Char.isWhitespace).reverse.dropWhile Char.isWhitespace).reverse

/-- Python `<` on strings: lexicographic comparison by code point,
used by `sorted` on the raster image paths (same directory, so paths
compare by final component). -/
def lexLe : List Char → List Char → Bool
  | [], _ => true
  | _ :: _, [] => false
  | a :: as, b :: bs =>
    if a.toNat < b.toNat then true
    else if b.toNat < a.toNat then false
    else lexLe as bs

/-- String wrapper for `lexLe`. -/
def strLe (a b : String) : Bool := lexLe a.toList b.toList

/-- Insert into an already-sorted list, before the first element that is
not smaller (stable, as Python's sort is). -/
def insertSorted (x : String) : List String → List String
  | [] => [x]
  | y :: ys => if strLe x y then x :: y :: ys else y :: insertSorted x ys

/-- Python `sorted` on a list of strings (ascending, stable). -/
def pySorted : List String → List String
  | [] => []
  | x :: xs => insertSorted x (pySorted xs)

/-! ## Pathlib model

`pathlib.PurePath` semantics for `name`, `stem`, `suffix` and `with_stem`,
as used by `convert_to_dark_mode` for the default output path.  A path is
split into the directory part (everything up to and including the last
slash) and the final component. -/

/-- Index of the last occurrence of `c` in the list, if any
(CPython `str.rfind`). -/
def lastIdxOf (c : Char) : List Char → Option Nat
  | [] => none
  | x :: xs =>
    match lastIdxOf c xs with
    | some i => some (i + 1)
    | none => if x = c then some 0 else none

/-- `PurePath.suffix`: the last extension of the final component,
empty unless the last dot sits strictly inside the name
(CPython: `0 < name.rfind('.') < len(name) - 1`). -/
def pySuffix (name : String) : String :=
  let cs := name.toList
  match lastIdxOf '.' cs with
  | some i => if 0 < i ∧ i + 1 < cs.length then (cs.drop i).asString else ""
  | none => ""

/-- `PurePath.stem`: the final component without its `pySuffix`. -/
def pyStem (name : String) : String :=
  let cs := name.toList
  match lastIdxOf '.' cs with
  | some i => if 0 < i ∧ i + 1 < cs.length then (cs.take i).asString else name
  | none => name

/-- A filesystem path, split as directory part (with trailing slash kept)
and final component, so that `toString` is their concatenation. -/
structure PyPath where
  dir : String
  name : String
deriving DecidableEq, Repr

/-- Render a `PyPath` back to its string form. -/
def PyPath.toString (p : PyPath) : String := p.dir ++ p.name

/-- `pathlib.Path(s)`: split a string at its last slash. -/
def pathOfString (s : String) : PyPath :=
  let cs := s.toList
  match lastIdxOf '/' cs with
  | some i => ⟨(cs.take (i + 1)).asString, (cs.drop (i + 1)).asString⟩
  | none => ⟨"", s⟩

/-- `PurePath.with_stem(st)` = `with_name(st + suffix)`: replace the stem,
keeping the directory and the original suffix. -/
def withStem (p : PyPath) (st : String) : PyPath :=
  ⟨p.dir, st ++ pySuffix p.name⟩

/-! ## Python `int()` on a string

Optional surrounding whitespace, optional sign, then a nonempty run of
ASCII digits with single underscores allowed between digits (PEP 515).
Unicode digits are not modelled; the claims only exercise ASCII output of
pdfinfo. -/

/-- Digit-run parser: accumulates a value; `none` accumulator means no
digit seen yet (so a leading underscore fails, as in CPython). -/
def pyDigits : Option Nat → List Char → Option Nat
  | acc, [] => acc
  | acc, c :: rest =>
    if c.isDigit then pyDigits (some ((acc.getD 0) * 10 + (c.toNat - 48))) rest
    else if c = '_' then
      match acc, rest with
      | some a, d :: rest2 =>
        if d.isDigit then pyDigits (some (a * 10 + (d.toNat - 48))) rest2 else none
      | _, _ => none
    else none

/-- `int(s)`: strip whitespace, optional sign, digits; `ValueError`
(modelled as `Except.error`) otherwise. -/
def pyInt (s : String) : Except Unit Int :=
  match stripWS s.toList with
  | '-' :: rest =>
    match pyDigits none rest with
    | some n => Except.ok (-(n : Int))
    | none => Except.error ()
  | '+' :: rest =>
    match pyDigits none rest with
    | some n => Except.ok (n : Int)
    | none => Except.error ()
  | cs =>
    match pyDigits none cs with
    | some n => Except.ok (n : Int)
    | none => Except.error ()

/-! ## `get_page_count` -/

/-- The `for` loop: the first stdout line starting with `Pages:`, if
any. -/
def findPagesLine : List String → Option String
  | [] => none
  | l :: rest =>
    if isPrefixList "Pages:".toList l.toList then some l else findPagesLine rest

/-- `int(line.split(':')[1].strip())` — the `[1]` IndexError cannot fire
on a line that starts with `Pages:`, but is modelled as an exception for
totality. -/
def parsePagesLine (l : String) : Except Unit Int :=
  match ((splitOnChar ':' l.toList).map List.asString).get? 1 with
  | some v => pyInt v
  | none => Except.error ()

/-- The body of `get_page_count` before the enclosing
`except Exception: return None` handler.  Its argument is the outcome of
`subprocess.run(["pdfinfo", path], capture_output=True)`: `none` models a
raised exception (e.g. FileNotFoundError), `some (rc, out)` a completed
process with return code `rc` and captured stdout `out`.  Any exception
raised in the body is an `Except.error`. -/
def get_page_count_body (outcome : Option (Int × String)) : Except Unit (Option Int) :=
  match outcome with
  | none => Except.error ()
  | some (_rc, stdout) =>
    match findPagesLine ((splitOnChar '\n' stdout.toList).map List.asString) with
    | none => Except.ok none
    | some l => (parsePagesLine l).map some

/-- `get_page_count`: the body with every exception caught and turned
into `None`.  The return code of pdfinfo is never consulted. -/
def get_page_count (outcome : Option (Int × String)) : Option Int :=
  match get_page_count_body outcome with
  | Except.ok v => v
  | Except.error _ => none

/-! ## `create_progress_bar` -/

/-- `create_progress_bar(current, total, width)`.  Python computes
`int(width * current / total)` with float division then truncation; for
the in-range values produced by the loop (`current ≤ total`, modest
sizes) this coincides with natural floor division, used here. -/
def create_progress_bar (current total width : Nat) : String :=
  let progress := width * current / total
  let bar := (List.replicate progress '█' ++ List.replicate (width - progress) '░').asString
  let percentage := 100 * current / total
  "\r|" ++ bar ++ "| " ++ toString percentage ++ "% (" ++
    toString current ++ "/" ++ toString total ++ " pages)"

/-! ## Events and environment

Every observable action of the script is an `Event`; a run produces a
trace `List Event`.  `Env` fixes the behaviour of the outside world:
for each external invocation either a raised `FileNotFoundError`
(`Except.error ()`) or a return exit code (`Except.ok rc`; exit codes are
never checked by the script), the files the rasterizer drops into the
temp directory, the pdfinfo capture, and which paths exist.  The single
temporary directory of a run is named `TMP/` in path strings. -/

/-- One observable action of the script. -/
inductive Event where
  /-- `print(s)` to stdout. -/
  | print (s : String)
  /-- `sys.stdout.write(s)` (progress bar, no newline). -/
  | write (s : String)
  /-- Entry of the `tempfile.TemporaryDirectory()` context manager. -/
  | createTempDir
  /-- Exit of the context manager: the directory and all its contents
  are deleted. -/
  | removeTempDir
  /-- Spawn attempt of a dependency probe (`tool --version` and
  friends). -/
  | runProbe (tool : String)
  /-- Spawn attempt of `pdfinfo`. -/
  | runPdfinfo
  /-- Spawn attempt of `pdftocairo -png -r 300 input outPfx`. -/
  | runRasterizer (input : String) (outPfx : String)
  /-- Spawn attempt of `convert src -negate ... dst`. -/
  | runInverter (src : String) (dst : String)
  /-- Spawn attempt of `img2pdf --output output images...` — the only
  action that writes the output path. -/
  | runAssembler (output : String) (images : List String)
deriving DecidableEq, Repr

/-- The path a given event writes (creates or overwrites), if any.
`runRasterizer` writes files under its output path, `runInverter`
its destination, `runAssembler` the output document. -/
def Event.writesTo : Event → Option String
  | .runRasterizer _ pfx => some pfx
  | .runInverter _ dst => some dst
  | .runAssembler out _ => some out
  | _ => none

/-- Behaviour of the outside world during one run. -/
structure Env where
  /-- Outcome of `subprocess.run(["pdftocairo", "-v"], ...)`:
  `Except.error ()` models a raised FileNotFoundError. -/
  probePdftocairo : Except Unit Int
  /-- Outcome of `subprocess.run(["convert", "-version"], ...)`. -/
  probeConvert : Except Unit Int
  /-- Outcome of `subprocess.run(["img2pdf", "--version"], ...)`. -/
  probeImg2pdf : Except Unit Int
  /-- Outcome of the `pdfinfo` invocation inside `get_page_count`. -/
  pdfinfoOutcome : Option (Int × String)
  /-- Outcome of the `pdftocairo` rasterizer invocation. -/
  rasterOutcome : Except Unit Int
  /-- File names present in the temp directory after rasterization
  (the rasterizer's droppings, before any glob filtering). -/
  rasterFiles : List String
  /-- Outcome of the i-th `convert` (inverter) invocation. -/
  invertOutcome : Nat → Except Unit Int
  /-- Outcome of the `img2pdf` assembler invocation. -/
  assembleOutcome : Except Unit Int
  /-- `os.path.exists`. -/
  fileExists : String → Bool

/-! ## `check_dependencies` -/

/-- The three required external tools. -/
inductive Tool where
  | pdftocairo
  | convert
  | img2pdf
deriving DecidableEq, Repr

/-- The label under which a missing tool is reported. -/
def toolLabel : Tool → String
  | .pdftocairo => "pdftocairo (poppler-utils)"
  | .convert => "convert (ImageMagick)"
  | .img2pdf => "img2pdf"

/-- The probe outcome for a tool in a given environment. -/
def probeOf (env : Env) : Tool → Except Unit Int
  | .pdftocairo => env.probePdftocairo
  | .convert => env.probeConvert
  | .img2pdf => env.probeImg2pdf

/-- Installation-guidance print lines for one tool. -/
def installLines : Tool → List String
  | .pdftocairo => ["sudo apt-get install -y poppler-utils"]
  | .convert => ["sudo apt-get install -y imagemagick"]
  | .img2pdf => ["sudo apt-get install -y python3-pip", "pip3 install img2pdf"]

/-- The `missing` list built by `check_dependencies`: a tool is appended
exactly when its probe raised FileNotFoundError, in source order. -/
def missingList (env : Env) : List String :=
  (match env.probePdftocairo with
   | Except.error _ => [toolLabel Tool.pdftocairo]
   | Except.ok _ => []) ++
  (match env.probeConvert with
   | Except.error _ => [toolLabel Tool.convert]
   | Except.ok _ => []) ++
  (match env.probeImg2pdf with
   | Except.error _ => [toolLabel Tool.img2pdf]
   | Except.ok _ => [])

/-- The event trace of `check_dependencies()`: three probe spawns, then,
when anything is missing, the report and the per-tool install guidance
(one `if` per tool, in source order). -/
def depEvents (env : Env) : List Event :=
  let probes : List Event :=
    [Event.runProbe "pdftocairo", Event.runProbe "convert", Event.runProbe "img2pdf"]
  let missing := missingList env
  if missing.isEmpty then probes
  else
    probes ++
      [Event.print ("ERROR: The following dependencies are missing: " ++
         String.intercalate ", " missing),
       Event.print "\nInstallation instructions for Pop!_OS / Ubuntu:",
       Event.print "sudo apt-get update"] ++
      (if toolLabel Tool.pdftocairo ∈ missing then
         (installLines Tool.pdftocairo).map Event.print else []) ++
      (if toolLabel Tool.convert ∈ missing then
         (installLines Tool.convert).map Event.print else []) ++
      (if toolLabel Tool.img2pdf ∈ missing then
         (installLines Tool.img2pdf).map Event.print else [])

/-- `check_dependencies()`: probe the three tools, report missing ones
with install guidance; returns `False` iff any probe raised
FileNotFoundError. -/
def check_dependencies (env : Env) : Bool × List Event :=
  ((missingList env).isEmpty, depEvents env)

/-! ## `convert_to_dark_mode` -/

/-- `temp_dir_path.glob("page-*.png")` membership test on a directory
entry: literal head `page-`, then anything, then literal tail `.png`. -/
def matchesGlob (s : String) : Bool :=
  isPrefixList "page-".toList s.toList &&
    isSuffixList ".png".toList (s.toList.drop 5)

/-- `sorted(list(temp_dir_path.glob("page-*.png")))`, as bare file
names (all in the same temp directory, so path order is name order). -/
def sortedImages (env : Env) : List String :=
  pySorted (env.rasterFiles.filter matchesGlob)

/-- The inversion loop over the sorted raster images, from index `i`.
For each image: spawn the inverter (which may raise, aborting the loop
with the exception), append the dark image path to the result, and, when
`0 < pc`, write the progress bar.  Returns the accumulated
`dark_mode_images` (or the exception) and the event trace. -/
def invertLoop (env : Env) (pc : Int) (total : Nat) :
    Nat → List String → Except Unit (List String) × List Event
  | _, [] => (Except.ok [], [])
  | i, f :: rest =>
    let spawn := Event.runInverter ("TMP/" ++ f) ("TMP/dark-" ++ f)
    match env.invertOutcome i with
    | Except.error _ => (Except.error (), [spawn])
    | Except.ok _ =>
      let progEvs : List Event :=
        if 0 < pc then [Event.write (create_progress_bar (i + 1) total 50)] else []
      let r := invertLoop env pc total (i + 1) rest
      (r.1.map (fun l => ("TMP/dark-" ++ f) :: l), spawn :: (progEvs ++ r.2))

/-- The output path used by `convert_to_dark_mode`: the second CLI
argument when given, otherwise the input path with `_darkiv` appended to
its stem (`Path.with_stem`, which keeps the input's own suffix). -/
def outputPathStr (input : String) (output? : Option String) : String :=
  match output? with
  | some o => o
  | none =>
    let p := pathOfString input
    (withStem p (pyStem p.name ++ "_darkiv")).toString

/-- The part of `convert_to_dark_mode` inside the
`tempfile.TemporaryDirectory()` block: rasterize, glob and sort, invert
each image (with progress), assemble.  `pc` is the page-count value
after the `None → 0` substitution. -/
def convertBody (env : Env) (input : String) (outputStr : String) (pc : Int) :
    Except Unit Bool × List Event :=
  let extractEvs : List Event :=
    [Event.print "Extracting PDF pages as images...",
     Event.runRasterizer input "TMP/page"]
  match env.rasterOutcome with
  | Except.error _ => (Except.error (), extractEvs)
  | Except.ok _ =>
    let images := sortedImages env
    if images.isEmpty then
      (Except.ok false,
       extractEvs ++ [Event.print "Error: No images were extracted from the PDF."])
    else
      let loop := invertLoop env pc images.length 0 images
      match loop.1 with
      | Except.error _ =>
        (Except.error (),
         extractEvs ++ [Event.print "applying dark mode..."] ++ loop.2)
      | Except.ok darks =>
        match env.assembleOutcome with
        | Except.error _ =>
          (Except.error (),
           extractEvs ++ [Event.print "applying dark mode..."] ++ loop.2 ++
             [Event.print "\ncombining inverted pages into PDF...",
              Event.runAssembler outputStr darks])
        | Except.ok _ =>
          (Except.ok true,
           extractEvs ++ [Event.print "applying dark mode..."] ++ loop.2 ++
             [Event.print "\ncombining inverted pages into PDF...",
              Event.runAssembler outputStr darks,
              Event.print ("created successfully: " ++ outputStr)])

/-- `convert_to_dark_mode(input_path, output_path)`.  Result is
`Except.ok b` for a normal return of `b`, `Except.error ()` for an
uncaught exception propagating out; the trace records all side
effects.  The temp-directory context manager removes the directory on
every way out of the `with` block, normal or exceptional. -/
def convert_to_dark_mode (env : Env) (input : String) (output? : Option String) :
    Except Unit Bool × List Event :=
  let outputStr := outputPathStr input output?
  let pc : Int := (get_page_count env.pdfinfoOutcome).getD 0
  let body := convertBody env input outputStr pc
  (body.1,
   [Event.print ("Converting " ++ input ++ " to dark mode..."), Event.runPdfinfo,
    Event.createTempDir] ++ body.2 ++ [Event.removeTempDir])

/-! ## `main` -/

/-- A single apostrophe, used in the file-not-found message. -/
def quoteChar : String := String.singleton (Char.ofNat 39)

/-- `main()`: `argv` is `sys.argv` including the program name at index
0.  Returns the process exit code and the trace.  An uncaught exception
from `convert_to_dark_mode` makes CPython exit with code 1. -/
def main_run (env : Env) (argv : List String) : Int × List Event :=
  match argv[1]? with
  | none => (1, [Event.print "usage: python pdf.py input.pdf [output.pdf]"])
  | some input =>
    if env.fileExists input then
      let dep := check_dependencies env
      if dep.1 then
        let conv := convert_to_dark_mode env input (argv[2]?)
        match conv.1 with
        | Except.ok true => (0, dep.2 ++ conv.2)
        | Except.ok false => (1, dep.2 ++ conv.2)
        | Except.error _ => (1, dep.2 ++ conv.2)
      else (1, dep.2)
    else
      (1, [Event.print ("Error: The file " ++ quoteChar ++ input ++ quoteChar ++
        " does not exist.")])

/-! ## Event classifiers -/

/-- Is this a progress-bar write? -/
def isWriteEv : Event → Bool
  | .write _ => true
  | _ => false

/-- Is this a rasterizer spawn? -/
def isRasterEv : Event → Bool
  | .runRasterizer _ _ => true
  | _ => false

/-- Is this an inverter spawn? -/
def isInverterEv : Event → Bool
  | .runInverter _ _ => true
  | _ => false

/-- Is this an assembler spawn? -/
def isAsmEv : Event → Bool
  | .runAssembler _ _ => true
  | _ => false

/-! ## Helper lemmas -/

/-- A prefix of `s` is a prefix of `s ++ r`. -/
lemma isPrefixList_append (p : List Char) :
    ∀ s r : List Char, isPrefixList p s = true → isPrefixList p (s ++ r) = true := by
  induction p with
  | nil => intro s r _; simp [isPrefixList]
  | cons c cs ih =>
    intro s r h
    cases s with
    | nil => simp [isPrefixList] at h
    | cons b bs =>
      by_cases hcb : c = b
      · subst hcb
        simp only [isPrefixList, if_pos rfl] at h
        simpa [isPrefixList] using ih bs r h
      · simp [isPrefixList, hcb] at h

/-- Every dark-image destination is inside the temp directory. -/
lemma tmpDark_hasTmpPfx (f : String) :
    isPrefixList "TMP/".toList ("TMP/dark-" ++ f).toList = true := by
  have h : ("TMP/dark-" ++ f).toList = "TMP/dark-".toList ++ f.toList := by simp
  rw [h]
  exact isPrefixList_append _ _ _ (by decide)

/-- When every inverter invocation from index `i` on returns, the loop
returns the dark-image path of every input image, in order. -/
lemma invertLoop_ok (env : Env) (pc : Int) (total : Nat) :
    ∀ (xs : List String) (i : Nat),
      (∀ j, j < xs.length → ∃ rc, env.invertOutcome (i + j) = Except.ok rc) →
      (invertLoop env pc total i xs).1 =
        Except.ok (xs.map (fun f => "TMP/dark-" ++ f)) := by
  intro xs
  induction xs with
  | nil => intro i _; simp [invertLoop]
  | cons f rest ih =>
    intro i h
    obtain ⟨rc, hrc⟩ := h 0 (by simp)
    rw [Nat.add_zero] at hrc
    have hrest : ∀ j, j < rest.length → ∃ rc, env.invertOutcome (i + 1 + j) = Except.ok rc := by
      intro j hj
      have := h (j + 1) (by simpa using Nat.succ_lt_succ hj)
      simpa [Nat.add_comm, Nat.add_assoc, Nat.add_left_comm] using this
    simp [invertLoop, hrc, ih (i + 1) hrest, Except.map]

/-- The loop trace holds only inverter spawns and progress writes. -/
lemma invertLoop_events (env : Env) (pc : Int) (total : Nat) :
    ∀ (xs : List String) (i : Nat), ∀ e ∈ (invertLoop env pc total i xs).2,
      (∃ s d, e = Event.runInverter s d) ∨ (∃ s, e = Event.write s) := by
  intro xs
  induction xs with
  | nil => intro i e he; simp [invertLoop] at he
  | cons f rest ih =>
    intro i e he
    cases hrc : env.invertOutcome i with
    | error u =>
      simp [invertLoop, hrc] at he
      exact Or.inl ⟨_, _, he⟩
    | ok rc =>
      simp only [invertLoop, hrc, List.mem_cons, List.mem_append] at he
      rcases he with he | he | he
      · exact Or.inl ⟨_, _, he⟩
      · by_cases hpc : 0 < pc
        · simp [hpc] at he
          exact Or.inr ⟨_, he⟩
        · simp [hpc] at he
      · exact ih (i + 1) e he

/-- Inside the loop, nothing satisfying a predicate false on inverter
spawns and writes is ever emitted. -/
lemma invertLoop_countP (env : Env) (pc : Int) (total : Nat) (p : Event → Bool)
    (h1 : ∀ s d, p (Event.runInverter s d) = false)
    (h2 : ∀ s, p (Event.write s) = false) :
    ∀ (xs : List String) (i : Nat), ((invertLoop env pc total i xs).2).countP p = 0 := by
  intro xs i
  rw [List.countP_eq_zero]
  intro e he
  rcases invertLoop_events env pc total xs i e he with ⟨s, d, rfl⟩ | ⟨s, rfl⟩
  · simp [h1]
  · simp [h2]

/-- Every inverter spawn in the loop targets a `TMP/dark-` path. -/
lemma invertLoop_inverter_shape (env : Env) (pc : Int) (total : Nat) :
    ∀ (xs : List String) (i : Nat) (s d : String),
      Event.runInverter s d ∈ (invertLoop env pc total i xs).2 →
      ∃ f, d = "TMP/dark-" ++ f := by
  intro xs
  induction xs with
  | nil => intro i s d h; simp [invertLoop] at h
  | cons f rest ih =>
    intro i s d h
    cases hrc : env.invertOutcome i with
    | error u =>
      simp [invertLoop, hrc, Event.runInverter.injEq] at h
      exact ⟨f, h.2⟩
    | ok rc =>
      simp only [invertLoop, hrc, List.mem_cons, List.mem_append] at h
      rcases h with h | h | h
      · simp only [Event.runInverter.injEq] at h
        exact ⟨f, h.2⟩
      · by_cases hpc : 0 < pc <;> simp [hpc] at h
      · exact ih (i + 1) s d h

/-- Every path the loop writes lies inside the temp directory. -/
lemma invertLoop_writes (env : Env) (pc : Int) (total : Nat)
    (xs : List String) (i : Nat) :
    ∀ e ∈ (invertLoop env pc total i xs).2, ∀ q, e.writesTo = some q →
      isPrefixList "TMP/".toList q.toList = true := by
  intro e he q hq
  rcases invertLoop_events env pc total xs i e he with ⟨s, d, rfl⟩ | ⟨s, rfl⟩
  · simp only [Event.writesTo, Option.some.injEq] at hq
    subst hq
    obtain ⟨f, rfl⟩ := invertLoop_inverter_shape env pc total xs i s _ he
    exact tmpDark_hasTmpPfx f
  · simp [Event.writesTo] at hq

/-- The progress writes of the loop: one bar per processed image when
`0 < pc`, none otherwise. -/
lemma invertLoop_filter_write (env : Env) (pc : Int) (total : Nat) :
    ∀ (xs : List String) (i : Nat),
      (∀ j, j < xs.length → ∃ rc, env.invertOutcome (i + j) = Except.ok rc) →
      ((invertLoop env pc total i xs).2).filter isWriteEv =
        if 0 < pc then
          (List.range' (i + 1) xs.length).map
            (fun k => Event.write (create_progress_bar k total 50))
        else [] := by
  intro xs
  induction xs with
  | nil => intro i _; simp [invertLoop]
  | cons f rest ih =>
    intro i h
    obtain ⟨rc, hrc⟩ := h 0 (by simp)
    rw [Nat.add_zero] at hrc
    have hrest : ∀ j, j < rest.length → ∃ rc, env.invertOutcome (i + 1 + j) = Except.ok rc := by
      intro j hj
      have := h (j + 1) (by simpa using Nat.succ_lt_succ hj)
      simpa [Nat.add_comm, Nat.add_assoc, Nat.add_left_comm] using this
    by_cases hpc : 0 < pc
    · simp [invertLoop, hrc, hpc, List.filter_append, ih (i + 1) hrest,
        isWriteEv, List.range', List.range'_succ]
    · simp [invertLoop, hrc, hpc, List.filter_append, ih (i + 1) hrest, isWriteEv]

/-- The dependency-check trace holds only probe spawns and prints. -/
lemma depEvents_shape (env : Env) :
    ∀ e ∈ depEvents env, (∃ s, e = Event.print s) ∨ (∃ t, e = Event.runProbe t) := by
  intro e he
  simp only [depEvents] at he
  split at he
  · simp at he
    rcases he with rfl | rfl | rfl <;> exact Or.inr ⟨_, rfl⟩
  · simp only [List.mem_append] at he
    rcases he with ((((he | he) | he) | he) | he)
    · simp at he
      rcases he with rfl | rfl | rfl <;> exact Or.inr ⟨_, rfl⟩
    · simp at he
      rcases he with rfl | rfl | rfl <;> exact Or.inl ⟨_, rfl⟩
    all_goals
      split at he
      · simp at he
        obtain ⟨a, -, rfl⟩ := he
        exact Or.inl ⟨_, rfl⟩
      · simp at he

/-- Nothing in the dependency-check trace satisfies a predicate false on
prints and probes. -/
lemma depEvents_countP (env : Env) (p : Event → Bool)
    (h1 : ∀ s, p (Event.print s) = false)
    (h2 : ∀ t, p (Event.runProbe t) = false) :
    (depEvents env).countP p = 0 := by
  rw [List.countP_eq_zero]
  intro e he
  rcases depEvents_shape env e he with ⟨s, rfl⟩ | ⟨t, rfl⟩ <;> simp [h1, h2]

/-- Trace of `convert_to_dark_mode` when the rasterizer exits normally
but drops no matching images: the no-images abort. -/
lemma convert_no_images (env : Env) (input : String) (output? : Option String)
    (rc : Int) (hr : env.rasterOutcome = Except.ok rc)
    (hempty : sortedImages env = []) :
    convert_to_dark_mode env input output? =
      (Except.ok false,
       [Event.print ("Converting " ++ input ++ " to dark mode..."), Event.runPdfinfo,
        Event.createTempDir, Event.print "Extracting PDF pages as images...",
        Event.runRasterizer input "TMP/page",
        Event.print "Error: No images were extracted from the PDF.",
        Event.removeTempDir]) := by
  simp [convert_to_dark_mode, convertBody, hr, hempty]

/-- Trace of `convert_to_dark_mode` on the happy path: assembler spawned
on the full dark-image list, confirmation printed, `True` returned. -/
lemma convert_success (env : Env) (input : String) (output? : Option String)
    (rcR rcA : Int) (hr : env.rasterOutcome = Except.ok rcR)
    (hne : sortedImages env ≠ [])
    (hinv : ∀ i, i < (sortedImages env).length → ∃ c, env.invertOutcome i = Except.ok c)
    (ha : env.assembleOutcome = Except.ok rcA) :
    convert_to_dark_mode env input output? =
      (Except.ok true,
       [Event.print ("Converting " ++ input ++ " to dark mode..."), Event.runPdfinfo,
        Event.createTempDir, Event.print "Extracting PDF pages as images...",
        Event.runRasterizer input "TMP/page",
        Event.print "applying dark mode..."] ++
       (invertLoop env ((get_page_count env.pdfinfoOutcome).getD 0)
          (sortedImages env).length 0 (sortedImages env)).2 ++
       [Event.print "\ncombining inverted pages into PDF...",
        Event.runAssembler (outputPathStr input output?)
          ((sortedImages env).map (fun f => "TMP/dark-" ++ f)),
        Event.print ("created successfully: " ++ outputPathStr input output?),
        Event.removeTempDir]) := by
  have hempty : (sortedImages env).isEmpty = false := by
    simpa [List.isEmpty_iff] using hne
  have hloop := invertLoop_ok env ((get_page_count env.pdfinfoOutcome).getD 0)
    (sortedImages env).length (sortedImages env) 0 (by simpa using hinv)
  simp [convert_to_dark_mode, convertBody, hr, hempty, hloop, ha]

/-- `main` with no input argument: usage abort. -/
lemma main_run_no_arg (env : Env) (argv : List String) (h : argv[1]? = none) :
    main_run env argv = (1, [Event.print "usage: python pdf.py input.pdf [output.pdf]"]) := by
  simp [main_run, h]

/-- `main` with a non-existent input: input-not-found abort. -/
lemma main_run_no_file (env : Env) (argv : List String) (inp : String)
    (h1 : argv[1]? = some inp) (h2 : env.fileExists inp = false) :
    main_run env argv =
      (1, [Event.print ("Error: The file " ++ quoteChar ++ inp ++ quoteChar ++
        " does not exist.")]) := by
  simp [main_run, h1, h2]

/-- `main` with a missing dependency: the run ends after the dependency
check, with only its trace. -/
lemma main_run_dep_missing (env : Env) (argv : List String) (inp : String)
    (h1 : argv[1]? = some inp) (h2 : env.fileExists inp = true)
    (hm : missingList env ≠ []) :
    main_run env argv = (1, depEvents env) := by
  have hm' : (missingList env).isEmpty = false := by
    simpa [List.isEmpty_iff] using hm
  simp [main_run, h1, h2, check_dependencies, hm']

/-- `main` past the dependency check: dependency trace, then
conversion; exit code from the conversion result. -/
lemma main_run_conv (env : Env) (argv : List String) (inp : String)
    (h1 : argv[1]? = some inp) (h2 : env.fileExists inp = true)
    (hm : missingList env = []) :
    main_run env argv =
      ((match (convert_to_dark_mode env inp (argv[2]?)).1 with
        | Except.ok true => (0 : Int)
        | Except.ok false => 1
        | Except.error _ => 1),
       depEvents env ++ (convert_to_dark_mode env inp (argv[2]?)).2) := by
  cases hc : (convert_to_dark_mode env inp (argv[2]?)).1 with
  | ok b => cases b <;> simp [main_run, h1, h2, check_dependencies, hm, hc]
  | error u => simp [main_run, h1, h2, check_dependencies, hm, hc]

/-- Exactly one rasterizer spawn occurs in every conversion trace. -/
lemma convert_countP_raster (env : Env) (input : String) (output? : Option String) :
    ((convert_to_dark_mode env input output?).2).countP isRasterEv = 1 := by
  have hloop0 := invertLoop_countP env ((get_page_count env.pdfinfoOutcome).getD 0)
    (sortedImages env).length isRasterEv (fun s d => rfl) (fun s => rfl)
    (sortedImages env) 0
  simp only [convert_to_dark_mode, convertBody]
  cases hr : env.rasterOutcome with
  | error u => simp [isRasterEv]
  | ok rc =>
    by_cases himgs : (sortedImages env).isEmpty
    · simp [himgs, isRasterEv]
    · simp only [himgs]
      cases hloop : (invertLoop env ((get_page_count env.pdfinfoOutcome).getD 0)
          (sortedImages env).length 0 (sortedImages env)).1 with
      | error u =>
        simp [hloop, List.countP_append, List.countP_cons, isRasterEv, hloop0]
      | ok darks =>
        cases ha : env.assembleOutcome with
        | error u =>
          simp [hloop, ha, List.countP_append, List.countP_cons, isRasterEv, hloop0]
        | ok rcA =>
          simp [hloop, ha, List.countP_append, List.countP_cons, isRasterEv, hloop0]

/-- At most one assembler spawn occurs in a conversion trace, and none
at all when no images were extracted. -/
lemma convert_countP_asm (env : Env) (input : String) (output? : Option String) :
    ((convert_to_dark_mode env input output?).2).countP isAsmEv ≤ 1 ∧
    (∀ rc, env.rasterOutcome = Except.ok rc → sortedImages env = [] →
      ((convert_to_dark_mode env input output?).2).countP isAsmEv = 0) := by
  have hloop0 := invertLoop_countP env ((get_page_count env.pdfinfoOutcome).getD 0)
    (sortedImages env).length isAsmEv (fun s d => rfl) (fun s => rfl)
    (sortedImages env) 0
  constructor
  · simp only [convert_to_dark_mode, convertBody]
    cases hr : env.rasterOutcome with
    | error u => simp [isAsmEv]
    | ok rc =>
      by_cases himgs : (sortedImages env).isEmpty
      · simp [himgs, isAsmEv]
      · simp only [himgs]
        cases hloop : (invertLoop env ((get_page_count env.pdfinfoOutcome).getD 0)
            (sortedImages env).length 0 (sortedImages env)).1 with
        | error u =>
          simp [hloop, List.countP_append, List.countP_cons, isAsmEv, hloop0]
        | ok darks =>
          cases ha : env.assembleOutcome with
          | error u =>
            simp [hloop, ha, List.countP_append, List.countP_cons, isAsmEv, hloop0]
          | ok rcA =>
            simp [hloop, ha, List.countP_append, List.countP_cons, isAsmEv, hloop0]
  · intro rc hr hempty
    rw [convert_no_images env input output? rc hr hempty]
    simp [List.countP_cons, isAsmEv]

/-- Boolean check: the event either writes nothing, writes inside the
temp directory, or is the assembler writing exactly `outStr`. -/
def writesOkB (outStr : String) : Event → Bool
  | .runRasterizer _ q => isPrefixList "TMP/".toList q.toList
  | .runInverter _ d => isPrefixList "TMP/".toList d.toList
  | .runAssembler out _ => out == outStr
  | _ => true

/-- All loop events pass the write check. -/
lemma invertLoop_all_writesOk (env : Env) (pc : Int) (total : Nat)
    (xs : List String) (i : Nat) (outStr : String) :
    ((invertLoop env pc total i xs).2).all (writesOkB outStr) = true := by
  rw [List.all_eq_true]
  intro e he
  rcases invertLoop_events env pc total xs i e he with ⟨s, d, rfl⟩ | ⟨s, rfl⟩
  · obtain ⟨f, rfl⟩ := invertLoop_inverter_shape env pc total xs i s d he
    simpa [writesOkB] using tmpDark_hasTmpPfx f
  · rfl

/-- All conversion events pass the write check for the conversion's own
output path. -/
lemma convert_all_writesOk (env : Env) (input : String) (output? : Option String) :
    ((convert_to_dark_mode env input output?).2).all
      (writesOkB (outputPathStr input output?)) = true := by
  have hloop := invertLoop_all_writesOk env ((get_page_count env.pdfinfoOutcome).getD 0)
    (sortedImages env).length (sortedImages env) 0 (outputPathStr input output?)
  simp only [convert_to_dark_mode, convertBody]
  cases hr : env.rasterOutcome with
  | error u =>
    simp [List.all_append, List.all_cons, writesOkB]
    all_goals decide
  | ok rc =>
    by_cases himgs : (sortedImages env).isEmpty
    · simp [himgs, List.all_append, List.all_cons, writesOkB]
      all_goals decide
    · simp only [himgs]
      cases hloopR : (invertLoop env ((get_page_count env.pdfinfoOutcome).getD 0)
          (sortedImages env).length 0 (sortedImages env)).1 with
      | error u =>
        simp [hloopR, List.all_append, List.all_cons, writesOkB, hloop]
        all_goals decide
      | ok darks =>
        cases ha : env.assembleOutcome with
        | error u =>
          simp [hloopR, ha, List.all_append, List.all_cons, writesOkB, hloop]
          all_goals decide
        | ok rcA =>
          simp [hloopR, ha, List.all_append, List.all_cons, writesOkB, hloop]
          all_goals decide

/-- Every write of the conversion lands inside the temp directory,
except the assembler's write to the output path. -/
lemma convert_writes (env : Env) (input : String) (output? : Option String) :
    ∀ e ∈ (convert_to_dark_mode env input output?).2, ∀ p, e.writesTo = some p →
      isPrefixList "TMP/".toList p.toList = true ∨
        (p = outputPathStr input output? ∧ ∃ imgs, e = Event.runAssembler p imgs) := by
  intro e he p hp
  have hb := List.all_eq_true.mp (convert_all_writesOk env input output?) e he
  cases e with
  | runRasterizer s q =>
    simp only [Event.writesTo, Option.some.injEq] at hp
    subst hp
    exact Or.inl hb
  | runInverter s d =>
    simp only [Event.writesTo, Option.some.injEq] at hp
    subst hp
    exact Or.inl hb
  | runAssembler out imgs =>
    simp only [Event.writesTo, Option.some.injEq] at hp
    subst hp
    simp only [writesOkB, beq_iff_eq] at hb
    exact Or.inr ⟨hb, imgs, rfl⟩
  | print s => simp [Event.writesTo] at hp
  | write s => simp [Event.writesTo] at hp
  | createTempDir => simp [Event.writesTo] at hp
  | removeTempDir => simp [Event.writesTo] at hp
  | runProbe t => simp [Event.writesTo] at hp
  | runPdfinfo => simp [Event.writesTo] at hp

/-- A `True` return from the conversion routine always comes with the
confirmation print naming the output path. -/
lemma convert_ok_true_print (env : Env) (input : String) (output? : Option String)
    (h : (convert_to_dark_mode env input output?).1 = Except.ok true) :
    Event.print ("created successfully: " ++ outputPathStr input output?) ∈
      (convert_to_dark_mode env input output?).2 := by
  simp only [convert_to_dark_mode, convertBody] at h ⊢
  cases hr : env.rasterOutcome with
  | error u => simp [hr] at h
  | ok rc =>
    rw [hr] at h
    by_cases himgs : (sortedImages env).isEmpty
    · simp [himgs] at h
    · simp only [himgs] at h ⊢
      cases hloop : (invertLoop env ((get_page_count env.pdfinfoOutcome).getD 0)
          (sortedImages env).length 0 (sortedImages env)).1 with
      | error u => simp [hloop] at h
      | ok darks =>
        rw [hloop] at h
        cases ha : env.assembleOutcome with
        | error u => simp [ha] at h
        | ok rcA => simp [hr, hloop, ha]

/-! ## Concrete environments used by the witnesses -/

/-- A fully healthy world: all tools present, pdfinfo reports 2 pages,
the rasterizer drops two page images plus an unrelated file. -/
def envAllOk : Env where
  probePdftocairo := Except.ok 0
  probeConvert := Except.ok 0
  probeImg2pdf := Except.ok 0
  pdfinfoOutcome := some (0, "Pages: 2\n")
  rasterOutcome := Except.ok 0
  rasterFiles := ["page-2.png", "page-1.png", "junk.txt"]
  invertOutcome := fun _ => Except.ok 0
  assembleOutcome := Except.ok 0
  fileExists := fun _ => true

/-- All tools present but every external invocation exits non-zero and
pdfinfo prints garbage. -/
def envFailCodes : Env where
  probePdftocairo := Except.ok 1
  probeConvert := Except.ok 1
  probeImg2pdf := Except.ok 1
  pdfinfoOutcome := some (1, "Syntax Error: broken")
  rasterOutcome := Except.ok 1
  rasterFiles := ["page-1.png"]
  invertOutcome := fun _ => Except.ok 2
  assembleOutcome := Except.ok 3
  fileExists := fun _ => true

/-- ImageMagick's `convert` is missing; the other tools are present. -/
def envMissingConvert : Env where
  probePdftocairo := Except.ok 0
  probeConvert := Except.error ()
  probeImg2pdf := Except.ok 0
  pdfinfoOutcome := some (0, "Pages: 2\n")
  rasterOutcome := Except.ok 0
  rasterFiles := ["page-1.png", "page-2.png"]
  invertOutcome := fun _ => Except.ok 0
  assembleOutcome := Except.ok 0
  fileExists := fun _ => true

/-- pdfinfo answers with a determined page count of zero. -/
def envPagesZero : Env where
  probePdftocairo := Except.ok 0
  probeConvert := Except.ok 0
  probeImg2pdf := Except.ok 0
  pdfinfoOutcome := some (0, "Pages: 0")
  rasterOutcome := Except.ok 0
  rasterFiles := ["page-1.png"]
  invertOutcome := fun _ => Except.ok 0
  assembleOutcome := Except.ok 0
  fileExists := fun _ => true

/-- The rasterizer runs but extracts nothing. -/
def envNoImages : Env where
  probePdftocairo := Except.ok 0
  probeConvert := Except.ok 0
  probeImg2pdf := Except.ok 0
  pdfinfoOutcome := some (0, "Pages: 2\n")
  rasterOutcome := Except.ok 0
  rasterFiles := []
  invertOutcome := fun _ => Except.ok 0
  assembleOutcome := Except.ok 0
  fileExists := fun _ => true

/-! ## Claims -/

/-- C7: the page-count lookup is total.  It returns `none` when the
pdfinfo spawn raises, when no stdout line starts with `Pages:`, and when
the first such line fails to parse as an integer; it returns `some n`
only when the first `Pages:` line parses to `n`; and the result never
depends on pdfinfo's exit code. -/
theorem C7_page_count_total :
    (get_page_count none = none) ∧
    (∀ rc out, findPagesLine ((splitOnChar '\n' out.toList).map List.asString) = none →
      get_page_count (some (rc, out)) = none) ∧
    (∀ rc out l, findPagesLine ((splitOnChar '\n' out.toList).map List.asString) = some l →
      parsePagesLine l = Except.error () →
      get_page_count (some (rc, out)) = none) ∧
    (∀ rc out n, get_page_count (some (rc, out)) = some n →
      ∃ l, findPagesLine ((splitOnChar '\n' out.toList).map List.asString) = some l ∧
        parsePagesLine l = Except.ok n) ∧
    (∀ rc rc' out, get_page_count (some (rc, out)) = get_page_count (some (rc', out))) := by
  refine ⟨rfl, ?_, ?_, ?_, ?_⟩
  · intro rc out h
    have h' : findPagesLine ((splitOnChar '\n' out.data).map List.asString) = none := h
    simp [get_page_count, get_page_count_body, h']
  · intro rc out l h1 h2
    have h1' : findPagesLine ((splitOnChar '\n' out.data).map List.asString) = some l := h1
    simp [get_page_count, get_page_count_body, h1', h2, Except.map]
  · intro rc out n h
    simp only [get_page_count, get_page_count_body] at h
    cases hf : findPagesLine ((splitOnChar '\n' out.toList).map List.asString) with
    | none => simp only [hf] at h; simp at h
    | some l =>
      simp only [hf] at h
      cases hp : parsePagesLine l with
      | error u => simp [hp, Except.map] at h
      | ok m =>
        simp [hp, Except.map] at h
        exact ⟨l, rfl, by rw [hp, h]⟩
  · intro rc rc' out
    simp [get_page_count, get_page_count_body]

/-- Witness for C7 at concrete inputs: a pdfinfo run that returned
garbage yields the explicit unknown result. -/
theorem C7_witness : get_page_count (some (3, "Syntax Error: broken")) = none :=
  C7_page_count_total.2.1 3 "Syntax Error: broken" (by decide)

/-- C5 counterexample: with no explicit output path, a non-PDF input
keeps its own extension — `doc.txt` becomes `doc_darkiv.txt`, not
`doc_darkiv.pdf` as the claim requires for every input path. -/
theorem C5_counterexample :
    outputPathStr "doc.txt" none = "doc_darkiv.txt" ∧
    ¬ outputPathStr "doc.txt" none = "doc_darkiv.pdf" := by
  decide

/-- Appending on the left is injective for strings. -/
lemma strAppend_cancel_left (a b c : String) (h : a ++ b = a ++ c) : b = c := by
  have hd : a.data ++ b.data = a.data ++ c.data := by
    have h2 := congrArg String.data h
    simpa using h2
  exact String.ext (List.append_cancel_left hd)

/-- C5 (amended): for every input path, when no explicit output path is
given the default output is `<input-stem>_darkiv<input-suffix>` in the
input's directory — the input's own extension is preserved — and it
equals `<input-stem>_darkiv.pdf` exactly when that extension is
`.pdf`. -/
theorem C5_default_output (input : String) :
    outputPathStr input none =
      (pathOfString input).dir ++
        ((pyStem (pathOfString input).name ++ "_darkiv") ++
          pySuffix (pathOfString input).name) ∧
    (outputPathStr input none =
        (pathOfString input).dir ++
          (pyStem (pathOfString input).name ++ "_darkiv.pdf") ↔
      pySuffix (pathOfString input).name = ".pdf") := by
  have hcat : (pyStem (pathOfString input).name ++ "_darkiv") ++ ".pdf" =
      pyStem (pathOfString input).name ++ "_darkiv.pdf" := by
    rw [String.append_assoc]
    rfl
  have huniv : outputPathStr input none =
      (pathOfString input).dir ++
        ((pyStem (pathOfString input).name ++ "_darkiv") ++
          pySuffix (pathOfString input).name) := rfl
  refine ⟨huniv, ?_, ?_⟩
  · intro h
    rw [huniv, ← hcat] at h
    exact strAppend_cancel_left _ _ _ (strAppend_cancel_left _ _ _ h)
  · intro h
    rw [huniv, h, hcat]

/-- Witness for C5: a `.pdf` input inside a directory hits the
`<input-stem>_darkiv.pdf` shape, and a `.txt` input keeps its own
suffix. -/
theorem C5_witness :
    outputPathStr "a/b/doc.pdf" none =
      (pathOfString "a/b/doc.pdf").dir ++
        (pyStem (pathOfString "a/b/doc.pdf").name ++ "_darkiv.pdf") ∧
    outputPathStr "doc.txt" none =
      (pathOfString "doc.txt").dir ++
        ((pyStem (pathOfString "doc.txt").name ++ "_darkiv") ++
          pySuffix (pathOfString "doc.txt").name) :=
  ⟨(C5_default_output "a/b/doc.pdf").2.mpr (by decide),
   (C5_default_output "doc.txt").1⟩

/-- C2: when the run reaches the inversion stage and every inverter
invocation returns, the assembly list is exactly the sorted raster list
mapped to dark-image paths — one inverted image per raster image, in the
same (lexicographically sorted) order, with equal length. -/
theorem C2_inversion_matches_rasters (env : Env) (input : String)
    (output? : Option String) (rc : Int)
    (hr : env.rasterOutcome = Except.ok rc)
    (hne : sortedImages env ≠ [])
    (hinv : ∀ i, i < (sortedImages env).length → ∃ c, env.invertOutcome i = Except.ok c) :
    (invertLoop env ((get_page_count env.pdfinfoOutcome).getD 0)
        (sortedImages env).length 0 (sortedImages env)).1 =
      Except.ok ((sortedImages env).map (fun f => "TMP/dark-" ++ f)) ∧
    Event.runAssembler (outputPathStr input output?)
        ((sortedImages env).map (fun f => "TMP/dark-" ++ f)) ∈
      (convert_to_dark_mode env input output?).2 ∧
    ((sortedImages env).map (fun f => "TMP/dark-" ++ f)).length =
      (sortedImages env).length := by
  have hloop := invertLoop_ok env ((get_page_count env.pdfinfoOutcome).getD 0)
    (sortedImages env).length (sortedImages env) 0 (by simpa using hinv)
  refine ⟨hloop, ?_, by simp⟩
  have hempty : (sortedImages env).isEmpty = false := by
    simpa [List.isEmpty_iff] using hne
  simp only [convert_to_dark_mode, convertBody, hr, hempty]
  cases ha : env.assembleOutcome <;> simp [hloop]

/-- Witness for C2 in the healthy world: two raster pages, two dark
pages, in sorted order. -/
theorem C2_witness :
    (invertLoop envAllOk ((get_page_count envAllOk.pdfinfoOutcome).getD 0)
        (sortedImages envAllOk).length 0 (sortedImages envAllOk)).1 =
      Except.ok ((sortedImages envAllOk).map (fun f => "TMP/dark-" ++ f)) ∧
    Event.runAssembler (outputPathStr "in.pdf" none)
        ((sortedImages envAllOk).map (fun f => "TMP/dark-" ++ f)) ∈
      (convert_to_dark_mode envAllOk "in.pdf" none).2 ∧
    ((sortedImages envAllOk).map (fun f => "TMP/dark-" ++ f)).length =
      (sortedImages envAllOk).length :=
  C2_inversion_matches_rasters envAllOk "in.pdf" none 0 rfl (by decide)
    (fun i _ => ⟨0, rfl⟩)

/-- C9: once at least one raster image exists, the conversion reports
success and prints the confirmation, whatever exit codes the inverter
and assembler invocations return — their statuses are never examined. -/
theorem C9_success_ignores_exit_codes (env : Env) (input : String)
    (output? : Option String) (rcR rcA : Int)
    (hr : env.rasterOutcome = Except.ok rcR)
    (hne : sortedImages env ≠ [])
    (hinv : ∀ i, ∃ c, env.invertOutcome i = Except.ok c)
    (ha : env.assembleOutcome = Except.ok rcA) :
    (convert_to_dark_mode env input output?).1 = Except.ok true ∧
    Event.print ("created successfully: " ++ outputPathStr input output?) ∈
      (convert_to_dark_mode env input output?).2 := by
  rw [convert_success env input output? rcR rcA hr hne (fun i _ => hinv i) ha]
  simp

/-- Witness for C9: every tool exits non-zero (rasterizer 1, inverter 2,
assembler 3), yet the run returns `True` and prints the confirmation. -/
theorem C9_witness :
    (convert_to_dark_mode envFailCodes "in.pdf" none).1 = Except.ok true ∧
    Event.print ("created successfully: " ++ outputPathStr "in.pdf" none) ∈
      (convert_to_dark_mode envFailCodes "in.pdf" none).2 :=
  C9_success_ignores_exit_codes envFailCodes "in.pdf" none 1 3 rfl (by decide)
    (fun i => ⟨2, rfl⟩) rfl

/-- C1: exit codes of the whole program.  Exit 1 on each abort path —
no input argument, missing input file, missing dependency, zero
extracted images — and exit 0 on success with the confirmation print
naming the output path; every run spawns the rasterizer and the
assembler at most once (no retries). -/
theorem C1_exit_codes (env : Env) (argv : List String) :
    (argv[1]? = none → (main_run env argv).1 = 1) ∧
    (∀ inp, argv[1]? = some inp → env.fileExists inp = false →
      (main_run env argv).1 = 1) ∧
    (∀ inp, argv[1]? = some inp → env.fileExists inp = true →
      missingList env ≠ [] → (main_run env argv).1 = 1) ∧
    (∀ inp rc, argv[1]? = some inp → env.fileExists inp = true →
      missingList env = [] → env.rasterOutcome = Except.ok rc →
      sortedImages env = [] → (main_run env argv).1 = 1) ∧
    (∀ inp, argv[1]? = some inp → env.fileExists inp = true →
      missingList env = [] →
      (convert_to_dark_mode env inp (argv[2]?)).1 = Except.ok true →
      (main_run env argv).1 = 0 ∧
      Event.print ("created successfully: " ++ outputPathStr inp (argv[2]?)) ∈
        (main_run env argv).2) ∧
    (((main_run env argv).2).countP isRasterEv ≤ 1 ∧
      ((main_run env argv).2).countP isAsmEv ≤ 1) := by
  refine ⟨?_, ?_, ?_, ?_, ?_, ?_⟩
  · intro h
    rw [main_run_no_arg env argv h]
  · intro inp h1 h2
    rw [main_run_no_file env argv inp h1 h2]
  · intro inp h1 h2 hm
    rw [main_run_dep_missing env argv inp h1 h2 hm]
  · intro inp rc h1 h2 hm hr hempty
    rw [main_run_conv env argv inp h1 h2 hm,
      convert_no_images env inp (argv[2]?) rc hr hempty]
  · intro inp h1 h2 hm hok
    rw [main_run_conv env argv inp h1 h2 hm]
    refine ⟨by simp [hok], ?_⟩
    exact List.mem_append_right _ (convert_ok_true_print env inp (argv[2]?) hok)
  · cases hargv : argv[1]? with
    | none =>
      rw [main_run_no_arg env argv hargv]
      exact ⟨by simp [isRasterEv], by simp [isAsmEv]⟩
    | some inp =>
      cases hex : env.fileExists inp with
      | false =>
        rw [main_run_no_file env argv inp hargv hex]
        exact ⟨by simp [isRasterEv], by simp [isAsmEv]⟩
      | true =>
        by_cases hm : missingList env = []
        · rw [main_run_conv env argv inp hargv hex hm]
          have hd1 : (depEvents env).countP isRasterEv = 0 :=
            depEvents_countP env _ (fun s => rfl) (fun t => rfl)
          have hd2 : (depEvents env).countP isAsmEv = 0 :=
            depEvents_countP env _ (fun s => rfl) (fun t => rfl)
          have hc1 := convert_countP_raster env inp (argv[2]?)
          have hc2 := (convert_countP_asm env inp (argv[2]?)).1
          constructor
          · show (depEvents env ++ (convert_to_dark_mode env inp (argv[2]?)).2).countP
              isRasterEv ≤ 1
            rw [List.countP_append, hd1, hc1]
          · show (depEvents env ++ (convert_to_dark_mode env inp (argv[2]?)).2).countP
              isAsmEv ≤ 1
            rw [List.countP_append, hd2]
            omega
        · rw [main_run_dep_missing env argv inp hargv hex hm]
          exact ⟨by rw [depEvents_countP env _ (fun s => rfl) (fun t => rfl)]; omega,
            by rw [depEvents_countP env _ (fun s => rfl) (fun t => rfl)]; omega⟩

/-- Witness for C1: the success path in the healthy world exits 0 and
prints the output path. -/
theorem C1_witness :
    (main_run envAllOk ["pdf.py", "in.pdf"]).1 = 0 ∧
    Event.print ("created successfully: " ++ outputPathStr "in.pdf" (["pdf.py", "in.pdf"][2]?)) ∈
      (main_run envAllOk ["pdf.py", "in.pdf"]).2 :=
  (C1_exit_codes envAllOk ["pdf.py", "in.pdf"]).2.2.2.2.1 "in.pdf" rfl rfl rfl (by decide)

/-- C3: only the assembler ever writes outside the temp directory, and
on each abort path — usage error, missing input, missing dependency,
zero extracted images — the assembler is never spawned, so no output
file is produced and the output path is untouched before assembly. -/
theorem C3_output_written_only_by_assembler (env : Env) (argv : List String) :
    (∀ e ∈ (main_run env argv).2, ∀ p, Event.writesTo e = some p →
      isPrefixList "TMP/".toList p.toList = false →
      ∃ imgs, e = Event.runAssembler p imgs) ∧
    (argv[1]? = none → ((main_run env argv).2).countP isAsmEv = 0) ∧
    (∀ inp, argv[1]? = some inp → env.fileExists inp = false →
      ((main_run env argv).2).countP isAsmEv = 0) ∧
    (∀ inp, argv[1]? = some inp → env.fileExists inp = true →
      missingList env ≠ [] → ((main_run env argv).2).countP isAsmEv = 0) ∧
    (∀ inp rc, argv[1]? = some inp → env.fileExists inp = true →
      missingList env = [] → env.rasterOutcome = Except.ok rc →
      sortedImages env = [] → ((main_run env argv).2).countP isAsmEv = 0) := by
  refine ⟨?_, ?_, ?_, ?_, ?_⟩
  · intro e he p hp hnp
    cases hargv : argv[1]? with
    | none =>
      rw [main_run_no_arg env argv hargv] at he
      simp at he
      subst he
      simp [Event.writesTo] at hp
    | some inp =>
      cases hex : env.fileExists inp with
      | false =>
        rw [main_run_no_file env argv inp hargv hex] at he
        simp at he
        subst he
        simp [Event.writesTo] at hp
      | true =>
        by_cases hm : missingList env = []
        · rw [main_run_conv env argv inp hargv hex hm] at he
          have he' : e ∈ depEvents env ++ (convert_to_dark_mode env inp (argv[2]?)).2 := he
          rcases List.mem_append.mp he' with hd | hc
          · rcases depEvents_shape env e hd with ⟨s, rfl⟩ | ⟨t, rfl⟩ <;>
              simp [Event.writesTo] at hp
          · rcases convert_writes env inp (argv[2]?) e hc p hp with htmp | ⟨hpe, imgs, rfl⟩
            · rw [htmp] at hnp
              cases hnp
            · exact ⟨imgs, rfl⟩
        · rw [main_run_dep_missing env argv inp hargv hex hm] at he
          rcases depEvents_shape env e he with ⟨s, rfl⟩ | ⟨t, rfl⟩ <;>
            simp [Event.writesTo] at hp
  · intro h
    rw [main_run_no_arg env argv h]
    simp [isAsmEv]
  · intro inp h1 h2
    rw [main_run_no_file env argv inp h1 h2]
    simp [isAsmEv]
  · intro inp h1 h2 hm
    rw [main_run_dep_missing env argv inp h1 h2 hm]
    exact depEvents_countP env _ (fun s => rfl) (fun t => rfl)
  · intro inp rc h1 h2 hm hr hempty
    rw [main_run_conv env argv inp h1 h2 hm]
    show (depEvents env ++ (convert_to_dark_mode env inp (argv[2]?)).2).countP isAsmEv = 0
    rw [List.countP_append, depEvents_countP env _ (fun s => rfl) (fun t => rfl),
      (convert_countP_asm env inp (argv[2]?)).2 rc hr hempty]

/-- Witness for C3: in the healthy world, the one event writing outside
the temp directory is the assembler writing the default output path. -/
theorem C3_witness :
    ∃ imgs, Event.runAssembler "in_darkiv.pdf" ["TMP/dark-page-1.png", "TMP/dark-page-2.png"] =
      Event.runAssembler "in_darkiv.pdf" imgs :=
  (C3_output_written_only_by_assembler envAllOk ["pdf.py", "in.pdf"]).1
    (Event.runAssembler "in_darkiv.pdf" ["TMP/dark-page-1.png", "TMP/dark-page-2.png"])
    (by decide) "in_darkiv.pdf" rfl (by decide)

/-- The loop never creates or removes the temp directory. -/
lemma invertLoop_countP_tmpdir (env : Env) (pc : Int) (total : Nat)
    (p : Event → Bool)
    (h1 : ∀ s d, p (Event.runInverter s d) = false)
    (h2 : ∀ s, p (Event.write s) = false)
    (xs : List String) (i : Nat) :
    ((invertLoop env pc total i xs).2).countP p = 0 :=
  invertLoop_countP env pc total p h1 h2 xs i

/-- Is this the creation of the temp directory? -/
def isCreateEv : Event → Bool
  | .createTempDir => true
  | _ => false

/-- Is this the removal of the temp directory? -/
def isRemoveEv : Event → Bool
  | .removeTempDir => true
  | _ => false

/-- The conversion enters the temp-directory scope exactly once and
leaves it exactly once, on every path. -/
lemma convert_countP_tmpdir (env : Env) (input : String) (output? : Option String) :
    ((convert_to_dark_mode env input output?).2).countP isCreateEv = 1 ∧
    ((convert_to_dark_mode env input output?).2).countP isRemoveEv = 1 := by
  have hc := invertLoop_countP env ((get_page_count env.pdfinfoOutcome).getD 0)
    (sortedImages env).length isCreateEv (fun s d => rfl) (fun s => rfl)
    (sortedImages env) 0
  have hrm := invertLoop_countP env ((get_page_count env.pdfinfoOutcome).getD 0)
    (sortedImages env).length isRemoveEv (fun s d => rfl) (fun s => rfl)
    (sortedImages env) 0
  constructor <;>
    (simp only [convert_to_dark_mode, convertBody]
     cases hr : env.rasterOutcome with
     | error u => simp [isCreateEv, isRemoveEv]
     | ok rc =>
       by_cases himgs : (sortedImages env).isEmpty
       · simp [himgs, isCreateEv, isRemoveEv]
       · simp only [himgs]
         cases hloop : (invertLoop env ((get_page_count env.pdfinfoOutcome).getD 0)
             (sortedImages env).length 0 (sortedImages env)).1 with
         | error u =>
           simp [hloop, List.countP_append, List.countP_cons, isCreateEv, isRemoveEv, hc, hrm]
         | ok darks =>
           cases ha : env.assembleOutcome with
           | error u =>
             simp [hloop, ha, List.countP_append, List.countP_cons, isCreateEv, isRemoveEv,
               hc, hrm]
           | ok rcA =>
             simp [hloop, ha, List.countP_append, List.countP_cons, isCreateEv, isRemoveEv,
               hc, hrm])

/-- C4: the temp directory is created once per conversion and its
removal is the very last event on every exit path — normal return
(success or no-images abort) and exception alike — and everything the
conversion writes other than the assembler's output lies inside the
temp directory, so nothing temporary survives the removal. -/
theorem C4_tempdir_removed_on_every_exit (env : Env) (input : String)
    (output? : Option String) :
    ((convert_to_dark_mode env input output?).2).getLast? = some Event.removeTempDir ∧
    ((convert_to_dark_mode env input output?).2).countP isCreateEv = 1 ∧
    ((convert_to_dark_mode env input output?).2).countP isRemoveEv = 1 ∧
    (∀ e ∈ (convert_to_dark_mode env input output?).2, ∀ p, Event.writesTo e = some p →
      isPrefixList "TMP/".toList p.toList = true ∨
        (p = outputPathStr input output? ∧ ∃ imgs, e = Event.runAssembler p imgs)) :=
  ⟨by
    simp only [convert_to_dark_mode]
    rw [List.getLast?_concat],
   (convert_countP_tmpdir env input output?).1,
   (convert_countP_tmpdir env input output?).2,
   convert_writes env input output?⟩

/-- Witness for C4 on the zero-extracted-pages abort: cleanup is still
the final event, and the rasterizer's write stays inside the temp
directory. -/
theorem C4_witness :
    ((convert_to_dark_mode envNoImages "in.pdf" none).2).getLast? =
      some Event.removeTempDir ∧
    (isPrefixList "TMP/".toList "TMP/page".toList = true ∨
      ("TMP/page" = outputPathStr "in.pdf" none ∧
        ∃ imgs, Event.runRasterizer "in.pdf" "TMP/page" = Event.runAssembler "TMP/page" imgs)) :=
  ⟨(C4_tempdir_removed_on_every_exit envNoImages "in.pdf" none).1,
   (C4_tempdir_removed_on_every_exit envNoImages "in.pdf" none).2.2.2
     (Event.runRasterizer "in.pdf" "TMP/page") (by decide) "TMP/page" rfl⟩

/-- C6: when any dependency is missing, the program exits 1, the
rasterizer is never spawned, and for each tool its installation guidance
is printed precisely when that tool is in the missing list. -/
theorem C6_missing_dependency_aborts (env : Env) (argv : List String) (inp : String)
    (h1 : argv[1]? = some inp) (h2 : env.fileExists inp = true)
    (hm : missingList env ≠ []) :
    (main_run env argv).1 = 1 ∧
    ((main_run env argv).2).countP isRasterEv = 0 ∧
    (∀ t : Tool, (∀ l ∈ installLines t, Event.print l ∈ (main_run env argv).2) ↔
      toolLabel t ∈ missingList env) := by
  rw [main_run_dep_missing env argv inp h1 h2 hm]
  refine ⟨rfl, depEvents_countP env _ (fun s => rfl) (fun t => rfl), ?_⟩
  intro t
  rcases hp : env.probePdftocairo with ⟨⟩ | vp <;>
    rcases hc : env.probeConvert with ⟨⟩ | vc <;>
      rcases hi : env.probeImg2pdf with ⟨⟩ | vi <;>
        cases t <;>
          simp only [depEvents, missingList, toolLabel, installLines, hp, hc, hi] at hm ⊢ <;>
            first
              | exact absurd rfl hm
              | decide

/-- Witness for C6: with ImageMagick missing, the run exits 1 and the
imagemagick install line is printed. -/
theorem C6_witness :
    (main_run envMissingConvert ["pdf.py", "in.pdf"]).1 = 1 ∧
    Event.print "sudo apt-get install -y imagemagick" ∈
      (main_run envMissingConvert ["pdf.py", "in.pdf"]).2 :=
  ⟨(C6_missing_dependency_aborts envMissingConvert ["pdf.py", "in.pdf"] "in.pdf"
      rfl rfl (by decide)).1,
   ((C6_missing_dependency_aborts envMissingConvert ["pdf.py", "in.pdf"] "in.pdf"
      rfl rfl (by decide)).2.2 Tool.convert).mpr (by decide)
     "sudo apt-get install -y imagemagick" (by decide)⟩

/-- C8 counterexample: pdfinfo successfully determines a page count of
zero, the loop processes one image, yet no progress line is ever
written — the bar is keyed on positivity, not on determination, because
the unknown case is collapsed to the sentinel 0. -/
theorem C8_counterexample :
    get_page_count envPagesZero.pdfinfoOutcome = some 0 ∧
    ((convert_to_dark_mode envPagesZero "in.pdf" none).2).countP isInverterEv = 1 ∧
    ((convert_to_dark_mode envPagesZero "in.pdf" none).2).countP isWriteEv = 0 := by
  decide

/-- C8 (amended): after each image the in-place progress line (as built
by `create_progress_bar`: carriage return, bracketed filled/empty bar,
percentage, current/total counter) is written precisely when the
determined page count is positive; when the lookup failed (sentinel 0)
or returned a non-positive count, the loop iterates silently. -/
theorem C8_progress_iff_positive_count (env : Env) (input : String)
    (output? : Option String) (rc : Int)
    (hr : env.rasterOutcome = Except.ok rc)
    (hne : sortedImages env ≠ [])
    (hinv : ∀ i, i < (sortedImages env).length → ∃ c, env.invertOutcome i = Except.ok c) :
    ((convert_to_dark_mode env input output?).2).filter isWriteEv =
      if 0 < (get_page_count env.pdfinfoOutcome).getD 0 then
        (List.range' 1 (sortedImages env).length).map
          (fun k => Event.write (create_progress_bar k (sortedImages env).length 50))
      else [] := by
  have hloopF := invertLoop_filter_write env ((get_page_count env.pdfinfoOutcome).getD 0)
    (sortedImages env).length (sortedImages env) 0 (by simpa using hinv)
  have hloopOk := invertLoop_ok env ((get_page_count env.pdfinfoOutcome).getD 0)
    (sortedImages env).length (sortedImages env) 0 (by simpa using hinv)
  have hempty : (sortedImages env).isEmpty = false := by
    simpa [List.isEmpty_iff] using hne
  simp only [convert_to_dark_mode, convertBody, hr, hempty, hloopOk]
  cases ha : env.assembleOutcome <;>
    simp [List.filter_append, isWriteEv, hloopF]

/-- Witness for C8 in the healthy world: two pages determined, two
progress lines written, matching the bar format exactly. -/
theorem C8_witness :
    ((convert_to_dark_mode envAllOk "in.pdf" none).2).filter isWriteEv =
      (if 0 < (get_page_count envAllOk.pdfinfoOutcome).getD 0 then
        (List.range' 1 (sortedImages envAllOk).length).map
          (fun k => Event.write (create_progress_bar k (sortedImages envAllOk).length 50))
      else []) :=
  C8_progress_iff_positive_count envAllOk "in.pdf" none 0 rfl (by decide)
    (fun i _ => ⟨0, rfl⟩)

/-- The rasterizer is spawned in every conversion, whatever happens
afterwards. -/
lemma convert_raster_mem (env : Env) (input : String) (output? : Option String) :
    Event.runRasterizer input "TMP/page" ∈ (convert_to_dark_mode env input output?).2 := by
  simp only [convert_to_dark_mode, convertBody]
  cases hr : env.rasterOutcome with
  | error u => simp
  | ok rc =>
    by_cases himgs : (sortedImages env).isEmpty
    · simp [himgs]
    · simp only [himgs]
      cases hloop : (invertLoop env ((get_page_count env.pdfinfoOutcome).getD 0)
          (sortedImages env).length 0 (sortedImages env)).1 with
      | error u => simp [hloop]
      | ok darks => cases ha : env.assembleOutcome <;> simp [hloop, ha]

/-- C10: a tool lands in the missing list exactly when its version-probe
spawn raises FileNotFoundError; when no probe raises — whatever exit
codes or error output the probes produce — the dependency check passes
and the pipeline goes on to spawn the rasterizer. -/
theorem C10_missing_iff_spawn_raises (env : Env) :
    (∀ t : Tool, toolLabel t ∈ missingList env ↔ probeOf env t = Except.error ()) ∧
    ((∀ t : Tool, probeOf env t ≠ Except.error ()) → (check_dependencies env).1 = true) ∧
    (∀ argv inp, argv[1]? = some inp → env.fileExists inp = true →
      (∀ t : Tool, probeOf env t ≠ Except.error ()) →
      Event.runRasterizer inp "TMP/page" ∈ (main_run env argv).2) := by
  have hmiss : (∀ t : Tool, probeOf env t ≠ Except.error ()) → missingList env = [] := by
    intro h
    rcases hp : env.probePdftocairo with ⟨⟩ | vp
    · exact absurd hp (h Tool.pdftocairo)
    · rcases hc : env.probeConvert with ⟨⟩ | vc
      · exact absurd hc (h Tool.convert)
      · rcases hi : env.probeImg2pdf with ⟨⟩ | vi
        · exact absurd hi (h Tool.img2pdf)
        · simp [missingList, hp, hc, hi]
  refine ⟨?_, ?_, ?_⟩
  · intro t
    rcases hp : env.probePdftocairo with ⟨⟩ | vp <;>
      rcases hc : env.probeConvert with ⟨⟩ | vc <;>
        rcases hi : env.probeImg2pdf with ⟨⟩ | vi <;>
          cases t <;>
            simp [missingList, toolLabel, probeOf, hp, hc, hi]
  · intro h
    simp [check_dependencies, hmiss h]
  · intro argv inp h1 h2 h
    rw [main_run_conv env argv inp h1 h2 (hmiss h)]
    exact List.mem_append_right _ (convert_raster_mem env inp (argv[2]?))

/-- Witness for C10: all probes return exit code 1 (present but
failing), no tool is reported missing, and the rasterizer is spawned. -/
theorem C10_witness :
    (check_dependencies envFailCodes).1 = true ∧
    Event.runRasterizer "in.pdf" "TMP/page" ∈
      (main_run envFailCodes ["pdf.py", "in.pdf"]).2 :=
  ⟨(C10_missing_iff_spawn_raises envFailCodes).2.1 (fun t => by cases t <;> decide),
   (C10_missing_iff_spawn_raises envFailCodes).2.2 ["pdf.py", "in.pdf"] "in.pdf"
     rfl rfl (fun t => by cases t <;> decide)⟩

end Darkiv
